import Mathlib

/-
  Verification development for the logline-motor repository.

  Shallow embedding of the command-execution runtime and its surrounding
  infrastructure: the entity registry (registry/src/lib.rs), the ruleset
  evaluator (ruleset/src/lib.rs, ruleset/src/rules.rs), the contract store
  (contracts/src/lib.rs), the event type (runtime/src/events.rs), the DSL
  parser (parser/src/parser.rs), the plugin host's memory marshalling
  (plugin_manager/src/plugin.rs) and the simulation engine
  (simulate/src/lib.rs, simulate/src/engine.rs, simulate/src/scenarios.rs).

  Modelling conventions:
  - Rust HashMap<String, V> is modelled as an association list with at most
    one binding per key (insert replaces any previous binding, as
    HashMap::insert does); iteration order is unspecified in the source and
    none of the verified properties depend on it.
  - wall-clock timestamps (chrono Utc::now()) are inputs of type Nat;
  - random sources (rand StdRng, uuid Uuid::new_v4) are explicit input
    streams, so that every function is a pure function of its inputs;
  - f64 metric arithmetic is modelled exactly over the rationals;
  - fallible Rust functions returning Result become Except.
-/

namespace Logline

/-! ## Association-list model of std::collections::HashMap<String, V> -/

/-- Model of HashMap::get: the value bound to key `id`, if any. -/
def mapGet {α : Type} : List (String × α) → String → Option α
  | [], _ => none
  | (k, v) :: m, id => if k = id then some v else mapGet m id

/-- Model of HashMap::remove in effect on the table: drop every binding of the key
(the table keeps at most one, so this is the single binding when present). -/
def mapErase {α : Type} : List (String × α) → String → List (String × α)
  | [], _ => []
  | (k, v) :: m, id => if k = id then mapErase m id else (k, v) :: mapErase m id

/-- Model of HashMap::insert: bind `k` to `v`, replacing any previous binding. -/
def mapInsert {α : Type} (m : List (String × α)) (k : String) (v : α) :
    List (String × α) :=
  (k, v) :: mapErase m k

theorem mapGet_erase {α : Type} (m : List (String × α)) (k id : String) :
    mapGet (mapErase m k) id = if k = id then none else mapGet m id := by
  induction m with
  | nil => by_cases h : k = id <;> simp [mapErase, mapGet, h]
  | cons p m ih =>
    obtain ⟨k1, v⟩ := p
    by_cases h1 : k1 = k
    · subst h1
      by_cases h2 : k1 = id
      · subst h2
        simp [mapErase, mapGet, ih]
      · simp [mapErase, mapGet, h2, ih]
    · by_cases h2 : k1 = id
      · subst h2
        have hk : ¬ k = k1 := fun h => h1 h.symm
        simp [mapErase, mapGet, h1, hk]
      · simp [mapErase, mapGet, h1, h2, ih]

theorem mapGet_erase_self {α : Type} (m : List (String × α)) (k : String) :
    mapGet (mapErase m k) k = none := by
  simp [mapGet_erase]

theorem mapGet_insert {α : Type} (m : List (String × α)) (k id : String) (v : α) :
    mapGet (mapInsert m k v) id = if k = id then some v else mapGet m id := by
  by_cases h : k = id <;> simp [mapInsert, mapGet, h, mapGet_erase]

/-- Keys of an association list. -/
def mapKeys {α : Type} (m : List (String × α)) : List String :=
  m.map Prod.fst

theorem mapKeys_erase_sublist {α : Type} (m : List (String × α)) (k : String) :
    (mapKeys (mapErase m k)).Sublist (mapKeys m) := by
  induction m with
  | nil => simp [mapErase, mapKeys]
  | cons p m ih =>
    obtain ⟨k1, v⟩ := p
    by_cases h : k1 = k
    · simpa [mapErase, mapKeys, h] using List.Sublist.cons k1 ih
    · simpa [mapErase, mapKeys, h] using List.Sublist.cons₂ k1 ih

theorem not_mem_mapKeys_erase {α : Type} (m : List (String × α)) (k : String) :
    k ∉ mapKeys (mapErase m k) := by
  induction m with
  | nil => simp [mapErase, mapKeys]
  | cons p m ih =>
    obtain ⟨k1, v⟩ := p
    by_cases h : k1 = k
    · simpa [mapErase, mapKeys, h] using ih
    · simp only [mapErase, if_neg h, mapKeys, List.map_cons, List.mem_cons, not_or]
      exact ⟨fun hh => h hh.symm, ih⟩

theorem mapKeys_insert_nodup {α : Type} (m : List (String × α)) (k : String) (v : α)
    (h : (mapKeys m).Nodup) : (mapKeys (mapInsert m k v)).Nodup := by
  have h1 : (mapKeys (mapErase m k)).Nodup := h.sublist (mapKeys_erase_sublist m k)
  simpa [mapInsert, mapKeys] using And.intro (not_mem_mapKeys_erase m k) h1

theorem mapKeys_erase_nodup {α : Type} (m : List (String × α)) (k : String)
    (h : (mapKeys m).Nodup) : (mapKeys (mapErase m k)).Nodup :=
  h.sublist (mapKeys_erase_sublist m k)

/-- With no duplicate keys, membership of a pair coincides with lookup. -/
theorem mem_iff_mapGet {α : Type} (m : List (String × α)) (k : String) (v : α)
    (h : (mapKeys m).Nodup) : (k, v) ∈ m ↔ mapGet m k = some v := by
  induction m with
  | nil => simp [mapGet]
  | cons p m ih =>
    obtain ⟨k1, v1⟩ := p
    simp only [mapKeys, List.map_cons, List.nodup_cons] at h
    by_cases hk : k1 = k
    · subst hk
      simp only [mapGet, if_pos rfl, List.mem_cons]
      constructor
      · rintro (hp | hp)
        · simp [Prod.ext_iff] at hp
          simp [hp]
        · exact absurd (List.mem_map_of_mem Prod.fst hp) h.1
      · intro hv
        left
        simp at hv
        simp [hv]
    · have hk2 : ¬ k1 = k := hk
      simp only [mapGet, if_neg hk2, List.mem_cons]
      rw [← ih h.2]
      constructor
      · rintro (hp | hp)
        · exact absurd (congrArg Prod.fst hp).symm hk
        · exact hp
      · intro hp
        right
        exact hp

/-! ## Registry (registry/src/lib.rs)

The registry is a process-wide `RwLock<HashMap<String, Entity>>`; the four
operations lock it, run briefly, and unlock, so a sequence of operations is
modelled by explicit state passing. `created_at` (chrono `Utc::now()`) is an
input. -/

/-- Entity record stored by the registry (registry/src/lib.rs, struct Entity). -/
structure Entity where
  logical_id : String
  entity_type : String
  created_at : Nat
deriving DecidableEq, Repr

/-- Registry state: the HashMap behind the REGISTRY lock. -/
abbrev Registry := List (String × Entity)

/-- Errors of the registry operations (the source uses Box of dyn Error with a
message; only the not-found case is ever constructed). -/
inductive RegistryError
  | notFound (id : String)
deriving DecidableEq, Repr

/-- Model of HashMap::get for the registry. -/
def lookupEntity (m : Registry) (id : String) : Option Entity :=
  mapGet m id

/-- registry::register_entity: build the Entity, insert it under logical_id
(insert-or-overwrite), return Ok(logical_id). The body has no failing path. -/
def register_entity (m : Registry) (logical_id entity_type : String) (now : Nat) :
    Except RegistryError (String × Registry) :=
  .ok (logical_id, mapInsert m logical_id ⟨logical_id, entity_type, now⟩)

/-- registry::fetch_entity: Ok((logical_id, entity_type)) when present, else the
not-found error. -/
def fetch_entity (m : Registry) (id : String) : Except RegistryError (String × String) :=
  match lookupEntity m id with
  | some e => .ok (e.logical_id, e.entity_type)
  | none => .error (.notFound id)

/-- registry::list_entities_by_type: the ids whose stored entity_type equals the
argument (exact match). -/
def list_entities_by_type (m : Registry) (entity_type : String) : List String :=
  (m.filter (fun p => p.2.entity_type = entity_type)).map Prod.fst

/-- registry::remove_entity: Ok(true) when the id was bound, Ok(false) otherwise;
the binding is dropped. -/
def remove_entity (m : Registry) (id : String) : Except RegistryError (Bool × Registry) :=
  .ok ((lookupEntity m id).isSome, mapErase m id)

/-! Histories of register/remove calls, for the registry-exactness claim. -/

/-- One registry operation of a register/remove history. -/
inductive RegOp
  | reg (id entity_type : String) (now : Nat)
  | rem (id : String)
deriving DecidableEq, Repr

/-- Run one operation against the registry state (both operations always
succeed, so the error branches are unreachable). -/
def applyOp (m : Registry) : RegOp → Registry
  | .reg id ty now =>
    match register_entity m id ty now with
    | .ok (_, m2) => m2
    | .error _ => m
  | .rem id =>
    match remove_entity m id with
    | .ok (_, m2) => m2
    | .error _ => m

/-- Run a history of operations from the empty registry. -/
def applyOps (ops : List RegOp) : Registry :=
  ops.foldl applyOp []

/-- Effect of one operation on what a given id is bound to. -/
def lastWriteStep (id : String) (acc : Option Entity) : RegOp → Option Entity
  | .reg i ty now => if i = id then some ⟨i, ty, now⟩ else acc
  | .rem i => if i = id then none else acc

/-- The entity a history leaves bound to `id`: the last registered and not since
removed one, if any. -/
def lastWrite (ops : List RegOp) (id : String) : Option Entity :=
  ops.foldl (lastWriteStep id) none

theorem lookupEntity_applyOp (m : Registry) (op : RegOp) (id : String) :
    lookupEntity (applyOp m op) id = lastWriteStep id (lookupEntity m id) op := by
  cases op with
  | reg i ty now =>
    simp [applyOp, register_entity, lastWriteStep, lookupEntity, mapGet_insert]
  | rem i =>
    simp [applyOp, remove_entity, lastWriteStep, lookupEntity, mapGet_erase]

theorem lookupEntity_foldl (ops : List RegOp) :
    ∀ (m : Registry) (id : String),
      lookupEntity (ops.foldl applyOp m) id =
        ops.foldl (lastWriteStep id) (lookupEntity m id) := by
  induction ops with
  | nil => intro m id; rfl
  | cons op ops ih =>
    intro m id
    simp only [List.foldl_cons]
    rw [ih, lookupEntity_applyOp]

theorem applyOp_keys_nodup (m : Registry) (op : RegOp)
    (h : (mapKeys m).Nodup) : (mapKeys (applyOp m op)).Nodup := by
  cases op with
  | reg i ty now => exact mapKeys_insert_nodup m i _ h
  | rem i => exact mapKeys_erase_nodup m i h

theorem applyOps_keys_nodup (ops : List RegOp) :
    (mapKeys (applyOps ops)).Nodup := by
  suffices h : ∀ (m : Registry), (mapKeys m).Nodup →
      (mapKeys (ops.foldl applyOp m)).Nodup from
    h [] (by simp [mapKeys])
  induction ops with
  | nil => intro m hm; exact hm
  | cons op ops ih =>
    intro m hm
    exact ih _ (applyOp_keys_nodup m op hm)

theorem mem_list_entities_by_type (m : Registry) (t x : String)
    (h : (mapKeys m).Nodup) :
    x ∈ list_entities_by_type m t ↔
      ∃ e, lookupEntity m x = some e ∧ e.entity_type = t := by
  simp only [list_entities_by_type, List.mem_map, List.mem_filter, decide_eq_true_eq]
  constructor
  · rintro ⟨⟨k, e⟩, ⟨hmem, ht⟩, rfl⟩
    exact ⟨e, (mem_iff_mapGet m k e h).mp hmem, ht⟩
  · rintro ⟨e, hget, ht⟩
    exact ⟨(x, e), ⟨(mem_iff_mapGet m x e h).mpr hget, ht⟩, rfl⟩

/-- C4: Registry exactness. After any finite history of register and remove
operations, every id is bound to at most one entity (the keys of the table are
nodup), and that entity is exactly the last registered and not since removed
one (register on an existing id replaces it); fetch_entity returns its
(logical_id, entity_type) and errors when absent; list_entities_by_type t
returns exactly the ids whose stored type equals t; register_entity returns
the input id; remove_entity returns true exactly when the id was present. -/
theorem C4_registry_exactness (ops : List RegOp) (id t x ty : String) (now : Nat)
    (m : Registry) :
    (mapKeys (applyOps ops)).Nodup ∧
    fetch_entity (applyOps ops) id =
      (match lastWrite ops id with
       | some e => .ok (e.logical_id, e.entity_type)
       | none => .error (.notFound id)) ∧
    (x ∈ list_entities_by_type (applyOps ops) t ↔
      ∃ e, lookupEntity (applyOps ops) x = some e ∧ e.entity_type = t) ∧
    (∃ m2, register_entity m id ty now = .ok (id, m2)) ∧
    remove_entity m id = .ok ((lookupEntity m id).isSome, mapErase m id) := by
  refine ⟨applyOps_keys_nodup ops, ?_, ?_, ⟨_, rfl⟩, rfl⟩
  · have h : lookupEntity (applyOps ops) id = lastWrite ops id := by
      have := lookupEntity_foldl ops [] id
      simpa [applyOps, lastWrite, lookupEntity, mapGet] using this
    simp [fetch_entity, h]
  · exact mem_list_entities_by_type _ t x (applyOps_keys_nodup ops)

/-- C10: register_entity is infallible. For every prior state, logical_id and
entity_type (the empty string included) and every timestamp, it returns Ok
carrying the input id, despite its Result return type. -/
theorem C10_register_entity_infallible (m : Registry) (logical_id entity_type : String)
    (now : Nat) :
    ∃ m2, register_entity m logical_id entity_type now = .ok (logical_id, m2) :=
  ⟨_, rfl⟩

/-! ## Ruleset evaluator (ruleset/src/lib.rs, ruleset/src/rules.rs) -/

/-- Verdict of evaluating a rule against an entity (rules.rs, enum Verdict). -/
inductive Verdict
  | Accepted
  | Rejected
deriving DecidableEq, Repr

/-- Rules of the built-in catalog (rules.rs, enum Rule). -/
inductive Rule
  | AlwaysAccept
  | AlwaysReject
  | ContentCheck (field pattern : String)
deriving DecidableEq, Repr

/-- Helper for Rust str::contains on string patterns: true when `needle` occurs
as a contiguous substring of the haystack. -/
def containsSub (needle : List Char) : List Char → Bool
  | [] => needle.isEmpty
  | c :: rest => needle.isPrefixOf (c :: rest) || containsSub needle rest

/-- Rust content.contains(pattern) for Strings. -/
def strContains (haystack pat : String) : Bool :=
  containsSub pat.data haystack.data

/-- rules.rs, Rule::evaluate: AlwaysAccept and AlwaysReject ignore the content;
ContentCheck ignores its field and tests substring occurrence of the pattern
in the content. -/
def Rule.evaluate : Rule → String → Verdict
  | .AlwaysAccept, _ => .Accepted
  | .AlwaysReject, _ => .Rejected
  | .ContentCheck _ pattern, content =>
    if strContains content pattern then .Accepted else .Rejected

/-- Error type of the ruleset crate (the source uses Box of dyn Error; no code
path of the crate ever constructs one). -/
inductive RulesetError
  | fetchFailed (message : String)
deriving DecidableEq, Repr

/-- ruleset/src/lib.rs, fetch_entity_content: stubbed content lookup that
ignores the entity id and returns one fixed string. -/
def fetch_entity_content (_entity_id : String) : Except RulesetError String :=
  .ok "This is a test entity with important content"

/-- ruleset/src/lib.rs, apply_ruleset: select the rule by ruleset_id (unknown
names fall back to AlwaysAccept), fetch the entity content and evaluate. -/
def apply_ruleset (ruleset_id entity_id : String) : Except RulesetError Verdict :=
  let rule : Rule :=
    match ruleset_id with
    | "always-accept" => .AlwaysAccept
    | "always-reject" => .AlwaysReject
    | "basic-check" => .ContentCheck "text" "important"
    | _ => .AlwaysAccept
  (fetch_entity_content entity_id).map (fun content => rule.evaluate content)

/-- C5: Ruleset catalog semantics. always-accept yields Accepted, always-reject
yields Rejected, basic-check yields Accepted exactly when the entity content
(the string fetch_entity_content returns) contains the substring "important",
and because that fixed content does contain it, basic-check yields Accepted;
any unknown name falls back to always-accept and yields Accepted. -/
theorem C5_ruleset_catalog (e r : String)
    (h1 : r ≠ "always-accept") (h2 : r ≠ "always-reject") (h3 : r ≠ "basic-check") :
    apply_ruleset "always-accept" e = .ok .Accepted ∧
    apply_ruleset "always-reject" e = .ok .Rejected ∧
    apply_ruleset "basic-check" e =
      (fetch_entity_content e).map (fun content =>
        if strContains content "important" then Verdict.Accepted else Verdict.Rejected) ∧
    apply_ruleset "basic-check" e = .ok .Accepted ∧
    apply_ruleset r e = .ok .Accepted := by
  refine ⟨rfl, rfl, rfl, rfl, ?_⟩
  unfold apply_ruleset
  split
  · exact absurd rfl h1
  · exact absurd rfl h2
  · exact absurd rfl h3
  · rfl

/-- Witness for C5 at a concrete unknown ruleset name. -/
theorem C5_ruleset_catalog_witness :
    ("custom-rule" ≠ "always-accept") ∧
    apply_ruleset "custom-rule" "entity-1" = .ok .Accepted :=
  ⟨by decide,
   (C5_ruleset_catalog "entity-1" "custom-rule" (by decide) (by decide) (by decide)).2.2.2.2⟩

/-- C9: The verdict of apply_ruleset is independent of the entity: the content
used for evaluation is a fixed string, so any two entity ids give the same
outcome, the call never errors, and basic-check in particular always yields
Accepted (the fixed content contains "important"). -/
theorem C9_verdict_entity_independent (ruleset_id e1 e2 : String) :
    apply_ruleset ruleset_id e1 = apply_ruleset ruleset_id e2 ∧
    (∃ v, apply_ruleset ruleset_id e1 = .ok v) ∧
    apply_ruleset "basic-check" e1 = .ok .Accepted := by
  refine ⟨rfl, ?_, rfl⟩
  unfold apply_ruleset
  split
  · exact ⟨.Accepted, rfl⟩
  · exact ⟨.Rejected, rfl⟩
  · exact ⟨.Accepted, rfl⟩
  · exact ⟨.Accepted, rfl⟩

/-! ## Contract store (contracts/src/lib.rs)

The store is a process-wide `Mutex<HashMap<String, Contract>>`; each operation
holds the lock for its whole body, so operations are modelled by explicit
state passing. The lock-poisoning failure of `.lock()` is a concurrency
artefact outside this sequential model. -/

/-- contracts/src/lib.rs, struct Contract. -/
structure Contract where
  id : String
  clauses : List String
  created_at : Nat
  updated_at : Nat
deriving DecidableEq, Repr

/-- Contract store state: the HashMap behind CONTRACT_STORE. -/
abbrev ContractStore := List (String × Contract)

/-- Errors of the contract operations (string messages in the source, modelled
as a sum: duplicate on create, notFound on get and update). -/
inductive ContractError
  | duplicate (id : String)
  | notFound (id : String)
deriving DecidableEq, Repr

/-- contracts/src/lib.rs, create_contract: build the record with
created_at = updated_at = now; if the id is already bound return the
duplication error and leave the store untouched, else insert it. -/
def create_contract (store : ContractStore) (id : String) (clauses : List String)
    (now : Nat) : Except ContractError Unit × ContractStore :=
  let contract : Contract := ⟨id, clauses, now, now⟩
  if (mapGet store id).isSome then (.error (.duplicate id), store)
  else (.ok (), mapInsert store id contract)

/-- contracts/src/lib.rs, get_contract: (id, clauses, created_at) when present. -/
def get_contract (store : ContractStore) (id : String) :
    Except ContractError (String × List String × Nat) :=
  match mapGet store id with
  | some c => .ok (c.id, c.clauses, c.created_at)
  | none => .error (.notFound id)

/-- C6: Duplicate contract creation fails atomically. When the id is already
bound, create_contract returns the duplication error and the store it leaves
behind is exactly the input store (the stored contract, its clauses and its
timestamps included); when the id is absent it succeeds, the new record is
stored under the id, and no other id's binding changes. -/
theorem C6_create_contract_duplicate_atomic (store : ContractStore) (id : String)
    (clauses : List String) (now : Nat) :
    ((mapGet store id).isSome →
      create_contract store id clauses now = (.error (.duplicate id), store)) ∧
    (mapGet store id = none →
      (create_contract store id clauses now).1 = .ok () ∧
      mapGet (create_contract store id clauses now).2 id = some ⟨id, clauses, now, now⟩ ∧
      ∀ k, k ≠ id → mapGet (create_contract store id clauses now).2 k = mapGet store k) := by
  constructor
  · intro h
    simp [create_contract, h]
  · intro h
    refine ⟨by simp [create_contract, h], by simp [create_contract, h, mapGet_insert], ?_⟩
    intro k hk
    have hk2 : ¬ id = k := fun hh => hk hh.symm
    simp [create_contract, h, mapGet_insert, hk2]

/-- Witness for C6: a store holding c1 rejects a second create of c1 unchanged,
and a fresh id is stored. -/
theorem C6_create_contract_duplicate_atomic_witness :
    ((mapGet [("c1", (⟨"c1", ["clause1", "clause2"], 0, 0⟩ : Contract))] "c1").isSome = true) ∧
    create_contract [("c1", ⟨"c1", ["clause1", "clause2"], 0, 0⟩)] "c1" ["clause1", "clause2"] 5 =
      (.error (.duplicate "c1"), [("c1", ⟨"c1", ["clause1", "clause2"], 0, 0⟩)]) :=
  ⟨by decide,
   (C6_create_contract_duplicate_atomic [("c1", ⟨"c1", ["clause1", "clause2"], 0, 0⟩)]
      "c1" ["clause1", "clause2"] 5).1 (by decide)⟩

/-! ## Events (runtime/src/events.rs) and the timeline

Event ids in the source are `Uuid::new_v4()`: sixteen random bytes with the
version nibble forced to 4 and the variant bits forced to 10. The random draw
is an explicit input here, so Event::new takes the sixteen bytes the process
RNG produced for the call. -/

/-- Kinds of runtime events (runtime/src/events.rs, enum EventKind). -/
inductive EventKind
  | RuntimeLifecycle (status : String)
  | ImperativeExecuted (kind : String)
  | IdeaRegistered (id : String)
  | ContractRegistered (id : String)
  | RuleVerdict (rule : String) (verdict : Verdict)
  | OrchestrationStarted (mode : String) (concurrency : Nat)
  | OrchestrationCompleted (mode : String) (concurrency : Nat) (duration_ms : Nat)
  | SimulationCompleted (id : String) (rounds : Nat)
  | ErrorOccurred (context : String) (message : String)
deriving DecidableEq, Repr

/-- Force the v4 version and variant bits, as the uuid crate's
Builder::from_random_bytes does: byte 6 keeps its low nibble and gets high
nibble 0x4; byte 8 keeps its low six bits and gets top bits 10. -/
def forceV4Byte (i b : Nat) : Nat :=
  if i = 6 then b % 16 + 64
  else if i = 8 then b % 64 + 128
  else b

/-- Uuid::new_v4 as a function of the sixteen random bytes: force the version
and variant bits and read the bytes as one big-endian 128-bit number. -/
def uuidV4 (randomBytes : List Nat) : Nat :=
  (randomBytes.enum.map (fun p => forceV4Byte p.1 p.2)).foldl
    (fun acc b => acc * 256 + b) 0

/-- Event with metadata (runtime/src/events.rs, struct Event); the id is the
128-bit uuid value. -/
structure Event where
  id : Nat
  timestamp : Nat
  kind : EventKind
deriving DecidableEq, Repr

/-- Event::new: fresh v4 uuid from the RNG draw, current timestamp, kind. -/
def Event.new (randomBytes : List Nat) (now : Nat) (kind : EventKind) : Event :=
  ⟨uuidV4 randomBytes, now, kind⟩

/-- Modelled from the spec: the runtime timeline module. The runtime crate's
lib.rs (`timeline::append`, `timeline::list_events`) is not among the source
files, only runtime/src/events.rs and the runtime tests are; per the spec the
timeline is an append-only ordered log whose append stores the event and whose
list_events returns every appended event in append order. -/
abbrev Timeline := List Event

/-- Modelled from the spec: timeline::append stores the event at the end of the
log (appends are serialized; the argument order of two sequential appends is
their happens-before order). -/
def appendEvent (tl : Timeline) (e : Event) : Timeline :=
  tl ++ [e]

/-- Modelled from the spec: timeline::list_events returns the log in append
order. -/
def list_events (tl : Timeline) : List Event :=
  tl

/-- Counterexample to C1 as stated: two events appended one after the other
(the first append happens-before the second) whose ids are NOT increasing.
Event::new draws its id from the process RNG (Uuid::new_v4), so a draw of
sixteen 0xFF bytes followed by a draw of sixteen 0x00 bytes — both possible
outputs of the RNG — yields a first id strictly greater than the second. -/
theorem C1_counterexample :
    list_events (appendEvent (appendEvent ([] : Timeline)
        (Event.new (List.replicate 16 255) 0 (.RuntimeLifecycle "initialized")))
        (Event.new (List.replicate 16 0) 1 (.ImperativeExecuted "DefineIdea")))
      = [Event.new (List.replicate 16 255) 0 (.RuntimeLifecycle "initialized"),
         Event.new (List.replicate 16 0) 1 (.ImperativeExecuted "DefineIdea")] ∧
    ¬ (Event.new (List.replicate 16 255) 0 (.RuntimeLifecycle "initialized")).id
        < (Event.new (List.replicate 16 0) 1 (.ImperativeExecuted "DefineIdea")).id := by
  exact ⟨rfl, by decide⟩

/-- C1 amended: list_events is a linear extension of the happens-before order
of append calls (events appended in sequence are listed in exactly that
order), and an event's id is a function of the RNG draw alone — independent of
the append's position, timestamp and kind — so nothing orders the ids of
successive appends. -/
theorem C1_amended_timeline_order (tl : Timeline) (es : List Event)
    (randomBytes : List Nat) (now1 now2 : Nat) (k1 k2 : EventKind) :
    list_events (es.foldl appendEvent tl) = list_events tl ++ es ∧
    (Event.new randomBytes now1 k1).id = (Event.new randomBytes now2 k2).id := by
  constructor
  · induction es generalizing tl with
    | nil => simp [list_events]
    | cons e es ih =>
      simp only [List.foldl_cons]
      rw [ih (appendEvent tl e)]
      simp [appendEvent, list_events]
  · rfl

/-! ## Plugin host memory marshalling (plugin_manager/src/plugin.rs)

load_plugin_metadata and invoke_plugin_function receive a (ptr, len) pair of
I32 results from the plugin's exported function and then read
`slice::from_raw_parts(memory.data_ptr().add(ptr as usize), len as usize)`.
The linear memory is modelled as its size in bytes together with the byte at
every host address reachable from data_ptr; addresses at or beyond `size` are
host memory outside the plugin's sandbox. `readRawParts` performs exactly the
source's unchecked read. -/

/-- Subset of wasmer::Value relevant to the marshalling code. -/
inductive WValue
  | I32 (n : Int)
  | I64 (n : Int)
  | other
deriving DecidableEq, Repr

/-- Errors of the plugin manager (plugin_manager/src/error.rs; the constructors
used by the two marshalling functions). -/
inductive PluginError
  | PluginNotFound (s : String)
  | FunctionNotFound (s : String)
  | WasmExecutionError (s : String)
  | MetadataError (s : String)
  | SerializationError (s : String)
  | Internal (s : String)
deriving DecidableEq, Repr

/-- The plugin's linear memory: its current size in bytes, and the byte the
host would read at each offset from data_ptr (offsets at or beyond `size` are
outside the plugin's memory). -/
structure WasmMemory where
  size : Nat
  data : Nat → Nat

/-- Rust `n as u32` on an i32 value: two's-complement reinterpretation. -/
def i32AsU32 (n : Int) : Nat :=
  (n % (4294967296 : Int)).toNat

/-- The source's `std::slice::from_raw_parts(memory.data_ptr().add(ptr), len)`:
reads `len` bytes starting at offset `ptr`, with no comparison of `ptr + len`
against the memory size. -/
def readRawParts (mem : WasmMemory) (ptr len : Nat) : List Nat :=
  (List.range len).map (fun i => mem.data (ptr + i))

/-- plugin.rs, load_plugin_metadata, handling of the get_metadata call result
(the ptr/len extraction and the memory read): result.get(0) and result.get(1)
must be I32 values, else MetadataError; the bytes are then read from memory
with no range check. -/
def load_plugin_metadata_read (result : List WValue) (mem : WasmMemory) :
    Except PluginError (List Nat) :=
  match result.get? 0 with
  | some (.I32 p) =>
    match result.get? 1 with
    | some (.I32 l) => .ok (readRawParts mem (i32AsU32 p) (i32AsU32 l))
    | _ => .error (.MetadataError "Retorno de metadados inválido")
  | _ => .error (.MetadataError "Retorno de metadados inválido")

/-- plugin.rs, invoke_plugin_function, handling of the hook call result (the
rptr/rlen extraction and the memory read): result.get(0) and result.get(1)
must be I32 values, else WasmExecutionError; the bytes are then read from
memory with no range check. -/
def invoke_plugin_function_read (result : List WValue) (mem : WasmMemory) :
    Except PluginError (List Nat) :=
  match result.get? 0 with
  | some (.I32 p) =>
    match result.get? 1 with
    | some (.I32 l) => .ok (readRawParts mem (i32AsU32 p) (i32AsU32 l))
    | _ => .error (.WasmExecutionError "Retorno de função inválido")
  | _ => .error (.WasmExecutionError "Retorno de função inválido")

/-- C2 is false of the code: with a 65536-byte linear memory and a returned
pair (ptr = 0, len = 70000) — a malformed return whose range exceeds the
memory size — both marshalling paths proceed to read (they return Ok with the
unchecked readRawParts bytes, reaching offsets past the end of the memory)
instead of returning a WasmExecutionError. -/
theorem C2_no_range_check_at_malformed_return :
    invoke_plugin_function_read [WValue.I32 0, WValue.I32 70000] ⟨65536, fun _ => 0⟩ =
      .ok (readRawParts ⟨65536, fun _ => 0⟩ (i32AsU32 0) (i32AsU32 70000)) ∧
    load_plugin_metadata_read [WValue.I32 0, WValue.I32 70000] ⟨65536, fun _ => 0⟩ =
      .ok (readRawParts ⟨65536, fun _ => 0⟩ (i32AsU32 0) (i32AsU32 70000)) ∧
    i32AsU32 0 + i32AsU32 70000 > 65536 := by
  exact ⟨rfl, rfl, by decide⟩

/-! ## DSL parser (parser/src/parser.rs)

Embedding of the nom combinators the parser uses. A parser is a function from
the remaining input to Option of (rest, value); nom's recoverable Err::Error
is None (none of the combinators used here produce Err::Failure). Character
classes: nom's multispace matches space, tab, CR and LF; Rust
char::is_alphanumeric is Unicode-aware and is modelled here on the ASCII
range via Char.isAlphanum (every input the theorems below evaluate uses only
ASCII characters in identifier and clause position). -/

/-- Parser input: the remaining characters. -/
abbrev PInput := List Char

/-- A nom parser producing a value of type α. -/
abbrev P (α : Type) := PInput → Option (PInput × α)

/-- Characters matched by nom multispace0 and multispace1. -/
def isMultispaceChar (c : Char) : Bool :=
  c = ' ' || c = '\t' || c = '\r' || c = '\n'

/-- nom bytes::complete::tag: match the literal characters at the head. -/
def tag (s : List Char) : P (List Char) := fun i =>
  if s.isPrefixOf i then some (i.drop s.length, s) else none

/-- nom character::complete::char: match one given character. -/
def charTok (c : Char) : P Char := fun i =>
  match i with
  | [] => none
  | x :: rest => if x = c then some (rest, c) else none

/-- nom character::complete::multispace0: zero or more whitespace characters. -/
def multispace0 : P (List Char) := fun i =>
  some (i.dropWhile isMultispaceChar, i.takeWhile isMultispaceChar)

/-- nom character::complete::multispace1: one or more whitespace characters. -/
def multispace1 : P (List Char) := fun i =>
  match i.takeWhile isMultispaceChar with
  | [] => none
  | ws => some (i.dropWhile isMultispaceChar, ws)

/-- nom character::complete::digit1: one or more ASCII digits. -/
def digit1 : P (List Char) := fun i =>
  match i.takeWhile Char.isDigit with
  | [] => none
  | ds => some (i.dropWhile Char.isDigit, ds)

/-- nom bytes::complete::take_while: the longest (possibly empty) head
satisfying the predicate. -/
def take_while (f : Char → Bool) : P (List Char) := fun i =>
  some (i.dropWhile f, i.takeWhile f)

/-- nom bytes::complete::take_till: everything (possibly nothing) up to the
first character satisfying the predicate. -/
def take_till (f : Char → Bool) : P (List Char) := fun i =>
  some (i.dropWhile (fun c => !f c), i.takeWhile (fun c => !f c))

/-- nom multi::separated_list0, specialised loop. Mirrors nom's control flow:
parse the separator, stop (returning what was accumulated) when it fails, fail
altogether when it succeeds without consuming (nom's SeparatedList infinite-
loop guard), then parse the element, stopping when it fails. The fuel is an
upper bound on the iterations; each iteration consumes at least one character
(the guard rejects a non-consuming separator), so the caller's fuel of input
length + 1 is never exhausted. -/
def sepList0Loop {α : Type} (sep : P Unit) (f : P α) :
    Nat → PInput → List α → Option (PInput × List α)
  | 0, _, _ => none
  | fuel + 1, i, acc =>
    match sep i with
    | none => some (i, acc.reverse)
    | some (i1, _) =>
      if i1.length = i.length then none
      else
        match f i1 with
        | none => some (i, acc.reverse)
        | some (i2, o) => sepList0Loop sep f fuel i2 (o :: acc)

/-- nom multi::separated_list0: empty list when the first element fails, else
the first element followed by the separator-element loop. -/
def separated_list0 {α : Type} (sep : P Unit) (f : P α) : P (List α) := fun i =>
  match f i with
  | none => some (i, [])
  | some (i1, o) => sepList0Loop sep f (i1.length + 1) i1 [o]

/-! The AST (parser/src/ast.rs). -/

/-- Specific kinds of imperative commands (ast.rs, enum ImperativeKind). -/
inductive ImperativeKind
  | DefineContract (id : String) (clauses : List String)
  | DefineIdea (id : String) (text : String)
  | SimulateEntity (id : String) (rounds : Nat)
  | Orchestrate (mode : String)
  | InvokeRuleset (entity_id : String) (ruleset_id : String)
deriving DecidableEq, Repr

/-- An imperative command (ast.rs, struct Imperative). -/
structure Imperative where
  kind : ImperativeKind
deriving DecidableEq, Repr

/-- A complete command (ast.rs, enum Command). -/
inductive Command
  | Imperative (imp : Logline.Imperative)
deriving DecidableEq, Repr

/-- Characters of an identifier (parser.rs, identifier): alphanumeric or one of
underscore, hyphen, dot, at. -/
def identChar (c : Char) : Bool :=
  c.isAlphanum || c = '_' || c = '-' || c = '.' || c = '@'

/-- parser.rs, identifier: a run of identifier characters (possibly empty,
since take_while accepts the empty run). -/
def identifier : P (List Char) :=
  take_while identChar

/-- Characters of a contract clause (parser.rs, clause). -/
def clauseChar (c : Char) : Bool :=
  c.isAlphanum || c = '_' || c = '-' || c = ' ' || c = '.' || c = ':' ||
  c = '(' || c = ')' || c = '[' || c = ']' || c = '$' || c = '%' || c = '@'

/-- parser.rs, clause: a run of clause characters (stops at the comma). -/
def clause : P (List Char) :=
  take_while clauseChar

/-- parser.rs, quoted_string: text delimited by double quotes, with no escape
mechanism (take_till stops at the first quote). -/
def quoted_string : P (List Char) := fun i => do
  let (i, _) ← charTok '"' i
  let (i, s) ← take_till (fun c => c = '"') i
  let (i, _) ← charTok '"' i
  pure (i, s)

/-- Digits of nom digit1 interpreted as a usize (map_res with str::parse; the
model ignores the u64 overflow failure, which no theorem here exercises). -/
def digitsToNat (ds : List Char) : Nat :=
  ds.foldl (fun a c => a * 10 + (c.toNat - 48)) 0

/-- The separator of the clause list: multispace0, comma, multispace0. -/
def clauseSep : P Unit := fun i => do
  let (i, _) ← multispace0 i
  let (i, _) ← charTok ',' i
  let (i, _) ← multispace0 i
  pure (i, ())

/-- parser.rs, define_contract: DEFINE ws CONTRACT ws identifier ws clauses. -/
def define_contract : P Imperative := fun i => do
  let (i, _) ← tag "DEFINE".data i
  let (i, _) ← multispace1 i
  let (i, _) ← tag "CONTRACT".data i
  let (i, _) ← multispace1 i
  let (i, id) ← identifier i
  let (i, _) ← multispace1 i
  let (i, clauses) ← separated_list0 clauseSep clause i
  pure (i, ⟨.DefineContract (String.mk id) (clauses.map String.mk)⟩)

/-- parser.rs, define_idea: DEFINE ws IDEA ws identifier ws quoted. -/
def define_idea : P Imperative := fun i => do
  let (i, _) ← tag "DEFINE".data i
  let (i, _) ← multispace1 i
  let (i, _) ← tag "IDEA".data i
  let (i, _) ← multispace1 i
  let (i, id) ← identifier i
  let (i, _) ← multispace1 i
  let (i, text) ← quoted_string i
  pure (i, ⟨.DefineIdea (String.mk id) (String.mk text)⟩)

/-- parser.rs, simulate_entity: SIMULATE ws ENTITY ws identifier ws uint. -/
def simulate_entity : P Imperative := fun i => do
  let (i, _) ← tag "SIMULATE".data i
  let (i, _) ← multispace1 i
  let (i, _) ← tag "ENTITY".data i
  let (i, _) ← multispace1 i
  let (i, id) ← identifier i
  let (i, _) ← multispace1 i
  let (i, ds) ← digit1 i
  pure (i, ⟨.SimulateEntity (String.mk id) (digitsToNat ds)⟩)

/-- parser.rs, orchestrate: ORCHESTRATE ws identifier. -/
def orchestrate : P Imperative := fun i => do
  let (i, _) ← tag "ORCHESTRATE".data i
  let (i, _) ← multispace1 i
  let (i, mode) ← identifier i
  pure (i, ⟨.Orchestrate (String.mk mode)⟩)

/-- parser.rs, invoke_ruleset: INVOKE ws RULESET ws identifier ws ON ws
identifier. -/
def invoke_ruleset : P Imperative := fun i => do
  let (i, _) ← tag "INVOKE".data i
  let (i, _) ← multispace1 i
  let (i, _) ← tag "RULESET".data i
  let (i, _) ← multispace1 i
  let (i, ruleset_id) ← identifier i
  let (i, _) ← multispace1 i
  let (i, _) ← tag "ON".data i
  let (i, _) ← multispace1 i
  let (i, entity_id) ← identifier i
  pure (i, ⟨.InvokeRuleset (String.mk entity_id) (String.mk ruleset_id)⟩)

/-- parser.rs, imperative: the alternation, tried in the source's order. None
of the alternatives consumes leading whitespace before its first tag. -/
def imperative : P Imperative := fun i =>
  define_contract i <|> define_idea i <|> simulate_entity i <|>
    orchestrate i <|> invoke_ruleset i

/-- parser.rs, command: an imperative wrapped as a Command. -/
def command : P Command := fun i =>
  (imperative i).map (fun p => (p.1, Command.Imperative p.2))

/-- Result of parse_command (the source returns Result of Command or a message
String; the two error shapes are the not-fully-consumed message and a nom
error rendered with Debug). -/
inductive ParseFail
  | remaining (rest : String)
  | nomError
deriving DecidableEq, Repr

/-- parser.rs, parse_command: run `command` on the raw input (nothing strips
leading whitespace first); accept only when the rest is whitespace
(rest.trim().is_empty()), else report the unconsumed rest; a parser failure is
the nom error. -/
def parse_command (input : String) : Except ParseFail Command :=
  match command input.data with
  | some (rest, cmd) =>
    if rest.all isMultispaceChar then .ok cmd
    else .error (.remaining (String.mk rest))
  | none => .error .nomError

/-- C3 is false of the code on its own test input: parse_command accepts the
repository test's DEFINE IDEA command when it starts at the first byte (the
trailing whitespace is trimmed), but the same command preceded by two spaces —
which the claim, the grammar and the repository test
parser_tests.rs::test_parse_with_whitespace all require to parse to the same
AST — is rejected, because every alternative of `imperative` begins with
tag("DEFINE"|"SIMULATE"|"ORCHESTRATE"|"INVOKE") and no combinator consumes
leading whitespace. -/
theorem C3_leading_whitespace_rejected :
    parse_command "DEFINE  IDEA   my-idea    \"Com espaços\"  " =
      .ok (.Imperative ⟨.DefineIdea "my-idea" "Com espaços"⟩) ∧
    parse_command "  DEFINE  IDEA   my-idea    \"Com espaços\"  " = .error .nomError := by
  exact ⟨rfl, rfl⟩

/-! ## Simulation engine (simulate/src/engine.rs, lib.rs, scenarios.rs, store)

f64 metric values are modelled exactly over ℚ. The StdRng is modelled as a
stream of unit-interval rationals together with a cursor: gen_range(a..b)
consumes one draw u and yields a + u * (b - a); gen_bool(p) consumes one draw
u and yields (u < p). Uuid::new_v4 result ids and Utc::now() timestamps are
per-round input streams. -/

/-- simulate/src/engine.rs, enum SimulationMode. -/
inductive SimulationMode
  | Deterministic
  | Random
  | Scenario
deriving DecidableEq, Repr

/-- simulate/src/lib.rs, enum SimulationStatus. -/
inductive SimulationStatus
  | Success
  | Failed
  | Interrupted
  | InProgress
deriving DecidableEq, Repr

/-- simulate/src/lib.rs, struct SimulationResult (metrics HashMap as an
association list; the uuid id as a Nat). -/
structure SimulationResult where
  id : Nat
  entity_id : String
  round : Nat
  timestamp : Nat
  metrics : List (String × ℚ)
  events : List String
  status : SimulationStatus
deriving DecidableEq

/-- simulate/src/scenarios.rs, struct ScenarioEvent (the optional JSON data
plays no part in the engine and is omitted). -/
structure ScenarioEvent where
  name : String
  probability : ℚ
deriving DecidableEq

/-- simulate/src/scenarios.rs, struct ScenarioModifier. -/
structure ScenarioModifier where
  metric : String
  factor : ℚ
  condition : Option String
deriving DecidableEq

/-- simulate/src/scenarios.rs, struct Scenario: the fields the engine reads
(name, metric ranges, events, modifiers; the config's description and outcomes
are never read by the engine and are omitted). -/
structure Scenario where
  name : String
  metrics : List (String × ℚ × ℚ)
  events : List ScenarioEvent
  modifiers : List ScenarioModifier
deriving DecidableEq

/-- scenarios.rs, the high_performance scenario of the static catalog. -/
def highPerformanceScenario : Scenario :=
  ⟨"high_performance",
   [("success_rate", ((9 : ℚ)/10, 1)), ("processing_time", (5, 50)),
    ("resource_usage", ((1 : ℚ)/10, (2 : ℚ)/5))],
   [⟨"process_start", 1⟩, ⟨"optimization_applied", (4 : ℚ)/5⟩,
    ⟨"process_complete", (19 : ℚ)/20⟩],
   [⟨"processing_time", (4 : ℚ)/5, some "event:optimization_applied"⟩]⟩

/-- scenarios.rs, the low_performance scenario of the static catalog. -/
def lowPerformanceScenario : Scenario :=
  ⟨"low_performance",
   [("success_rate", ((2 : ℚ)/5, (7 : ℚ)/10)), ("processing_time", (200, 800)),
    ("resource_usage", ((7 : ℚ)/10, (19 : ℚ)/20))],
   [⟨"process_start", (9 : ℚ)/10⟩, ⟨"resource_exhausted", (3 : ℚ)/5⟩,
    ⟨"process_timeout", (2 : ℚ)/5⟩, ⟨"process_complete", (3 : ℚ)/5⟩],
   [⟨"success_rate", (1 : ℚ)/2, some "event:resource_exhausted"⟩,
    ⟨"processing_time", (3 : ℚ)/2, some "metrics.resource_usage > 0.85"⟩]⟩

/-- scenarios.rs, the normal scenario of the static catalog. -/
def normalScenario : Scenario :=
  ⟨"normal",
   [("success_rate", ((7 : ℚ)/10, (9 : ℚ)/10)), ("processing_time", (50, 200)),
    ("resource_usage", ((2 : ℚ)/5, (7 : ℚ)/10))],
   [⟨"process_start", 1⟩, ⟨"validation_complete", (4 : ℚ)/5⟩,
    ⟨"process_complete", (17 : ℚ)/20⟩],
   []⟩

/-- scenarios.rs, load_scenario: look the name up in the static catalog. -/
def load_scenario (name : String) : Option Scenario :=
  match name with
  | "high_performance" => some highPerformanceScenario
  | "low_performance" => some lowPerformanceScenario
  | "normal" => some normalScenario
  | _ => none

/-- scenarios.rs, default_scenario_for_type: CONTRACT gets high_performance,
IDEA and everything else get normal (after uppercasing the type). -/
def default_scenario_for_type (entity_type : String) : Scenario :=
  match entity_type.toUpper with
  | "CONTRACT" => highPerformanceScenario
  | "IDEA" => normalScenario
  | _ => normalScenario

/-- State of the StdRng: the stream of unit-interval draws and the cursor. -/
structure RngState where
  u : Nat → ℚ
  i : Nat

/-- rand Rng::gen_range(a..b) over f64: one draw u gives a + u * (b - a). -/
def gen_range (s : RngState) (a b : ℚ) : ℚ × RngState :=
  (a + s.u s.i * (b - a), ⟨s.u, s.i + 1⟩)

/-- rand Rng::gen_bool(p): one draw u gives (u < p). -/
def gen_bool (s : RngState) (p : ℚ) : Bool × RngState :=
  (decide (s.u s.i < p), ⟨s.u, s.i + 1⟩)

/-- engine.rs, run_deterministic_simulation: every scenario metric gets the
midpoint of its range; the scenario events with probability at least 1.0 are
recorded as name:entity=id. No RNG draw is consumed. -/
def run_deterministic_simulation (res : SimulationResult) (scn : Scenario) :
    SimulationResult :=
  ⟨res.id, res.entity_id, res.round, res.timestamp,
   scn.metrics.map (fun p => (p.1, (p.2.1 + p.2.2) / 2)),
   (scn.events.filter (fun e => e.probability ≥ 1)).map
     (fun e => e.name ++ ":entity=" ++ res.entity_id),
   res.status⟩

/-- engine.rs, run_random_simulation: success_rate uniform in 0.5..1.0,
processing_time in 10.0..500.0, resource_usage in 0.1..0.9, then three
probabilistic events at 0.7, 0.5 and 0.3. -/
def run_random_simulation (res : SimulationResult) (rng : RngState) :
    SimulationResult × RngState :=
  let sr := gen_range rng ((1 : ℚ)/2) 1
  let pt := gen_range sr.2 10 500
  let ru := gen_range pt.2 ((1 : ℚ)/10) ((9 : ℚ)/10)
  let b1 := gen_bool ru.2 ((7 : ℚ)/10)
  let b2 := gen_bool b1.2 ((1 : ℚ)/2)
  let b3 := gen_bool b2.2 ((3 : ℚ)/10)
  (⟨res.id, res.entity_id, res.round, res.timestamp,
    [("success_rate", sr.1), ("processing_time", pt.1), ("resource_usage", ru.1)],
    (if b1.1 then ["process_start:entity=" ++ res.entity_id] else []) ++
      (if b2.1 then ["validation_complete:entity=" ++ res.entity_id] else []) ++
      (if b3.1 then ["resource_allocation:entity=" ++ res.entity_id] else []),
    res.status⟩, b3.2)

/-- engine.rs, run_scenario_simulation: each scenario metric uniform over its
range, each scenario event with its probability, then every modifier
multiplies its metric unconditionally (the condition field is not
interpreted). -/
def run_scenario_simulation (res : SimulationResult) (scn : Scenario)
    (rng : RngState) : SimulationResult × RngState :=
  let ms := scn.metrics.foldl
    (fun (acc : List (String × ℚ) × RngState) p =>
      let out := gen_range acc.2 p.2.1 p.2.2
      (acc.1 ++ [(p.1, out.1)], out.2))
    ([], rng)
  let evs := scn.events.foldl
    (fun (acc : List String × RngState) e =>
      let out := gen_bool acc.2 e.probability
      (if out.1 then acc.1 ++ [e.name ++ ":entity=" ++ res.entity_id] else acc.1,
       out.2))
    ([], ms.2)
  let modified := scn.modifiers.foldl
    (fun (acc : List (String × ℚ)) m =>
      acc.map (fun p => if p.1 = m.metric then (p.1, p.2 * m.factor) else p))
    ms.1
  (⟨res.id, res.entity_id, res.round, res.timestamp, modified, evs.1, res.status⟩,
   evs.2)

/-- engine.rs, SimulationEngine::simulate_round: build the InProgress result
with a fresh uuid and timestamp, run the mode's routine, mark Success. -/
def simulate_round (mode : SimulationMode) (entity_id : String) (scn : Scenario)
    (round uid time : Nat) (rng : RngState) : SimulationResult × RngState :=
  let res0 : SimulationResult := ⟨uid, entity_id, round, time, [], [], .InProgress⟩
  let step :=
    match mode with
    | .Deterministic => (run_deterministic_simulation res0 scn, rng)
    | .Random => run_random_simulation res0 rng
    | .Scenario => run_scenario_simulation res0 scn rng
  (⟨step.1.id, step.1.entity_id, step.1.round, step.1.timestamp, step.1.metrics,
    step.1.events, .Success⟩, step.2)

/-- simulate/src/lib.rs, enum SimulateError (string payloads). -/
inductive SimulateError
  | EntityNotFound (s : String)
  | RegistryError (s : String)
  | SimulationError (s : String)
  | ScenarioNotFound (s : String)
  | StorageError (s : String)
  | ConfigError (s : String)
  | Internal (s : String)
deriving DecidableEq, Repr

/-- The in-memory simulation store (simulate/src/store/mem.rs): results grouped
by entity id. -/
abbrev SimStore := List (String × List SimulationResult)

/-- store/mem.rs, save_simulation_result: push the result onto its entity's
list; never fails. -/
def save_simulation_result (st : SimStore) (res : SimulationResult) :
    Except SimulateError SimStore :=
  .ok (mapInsert st res.entity_id (((mapGet st res.entity_id).getD []) ++ [res]))

/-- simulate/src/lib.rs, struct SimulationConfig. -/
structure SimulationConfig where
  mode : SimulationMode
  rounds : Nat
  random_seed : Option Nat
  metrics : List String
  scenario : Option String

/-- simulate/src/lib.rs, the Default impl of SimulationConfig: Random mode, 10
rounds, no seed, the three standard metric names, no scenario. -/
def defaultSimulationConfig : SimulationConfig :=
  ⟨.Random, 10, none, ["success_rate", "processing_time", "resource_usage"], none⟩

/-- The loop of run_simulation_with_config: run `rounds` rounds starting after
`base`, threading the RNG and the store; each round's result is saved then
collected (the mem store's save never fails, so the storage error branch is
vacuous). -/
def run_rounds (mode : SimulationMode) (entity_id : String) (scn : Scenario)
    (uuids times : Nat → Nat) :
    Nat → Nat → RngState → SimStore →
      Except SimulateError (List SimulationResult × SimStore)
  | 0, _, _, st => .ok ([], st)
  | n + 1, base, rng, st =>
    let step := simulate_round mode entity_id scn (base + 1) (uuids base) (times base) rng
    match save_simulation_result st step.1 with
    | .error _ => .error (.StorageError "save failed")
    | .ok st1 =>
      match run_rounds mode entity_id scn uuids times n (base + 1) step.2 st1 with
      | .error e => .error e
      | .ok (rest, st2) => .ok (step.1 :: rest, st2)

/-- simulate/src/lib.rs, run_simulation_with_config: check the entity exists in
the registry (its type picks the default scenario), resolve the configured
scenario name if any (unknown name is ScenarioNotFound), then run the rounds. -/
def run_simulation_with_config (reg : Registry) (entity_id : String)
    (cfg : SimulationConfig) (uuids times : Nat → Nat) (rng : RngState)
    (st : SimStore) : Except SimulateError (List SimulationResult) :=
  match fetch_entity reg entity_id with
  | .error (.notFound id) => .error (.RegistryError id)
  | .ok (_, entity_type) =>
    let scnE : Except SimulateError Scenario :=
      match cfg.scenario with
      | some nm =>
        match load_scenario nm with
        | some scn => .ok scn
        | none => .error (.ScenarioNotFound nm)
      | none => .ok (default_scenario_for_type entity_type)
    match scnE with
    | .error e => .error e
    | .ok scn =>
      match run_rounds cfg.mode entity_id scn uuids times cfg.rounds 0 rng st with
      | .error e => .error e
      | .ok (results, _) => .ok results

/-- simulate/src/lib.rs, run_simulation: the default config with the requested
number of rounds. -/
def run_simulation (reg : Registry) (entity_id : String) (rounds : Nat)
    (uuids times : Nat → Nat) (rng : RngState) (st : SimStore) :
    Except SimulateError (List SimulationResult) :=
  run_simulation_with_config reg entity_id
    ⟨defaultSimulationConfig.mode, rounds, defaultSimulationConfig.random_seed,
     defaultSimulationConfig.metrics, defaultSimulationConfig.scenario⟩
    uuids times rng st

/-- simulate/src/lib.rs, evaluate_simulation: 0.0 for no results, else the mean
of the success_rate metrics over the results that carry one (0.0 when none
does). -/
def evaluate_simulation (results : List SimulationResult) : ℚ :=
  if results.isEmpty then 0
  else
    let vals := results.filterMap (fun r => mapGet r.metrics "success_rate")
    if vals.length = 0 then 0
    else vals.sum / (vals.length : ℚ)

/-! Reproducibility of deterministic-mode simulation (C7). -/

/-- The per-round data the determinism claim is about: everything in a
SimulationResult except the fresh uuid and the wall-clock timestamp. -/
def resultObservation (r : SimulationResult) :
    String × Nat × List (String × ℚ) × List String × SimulationStatus :=
  (r.entity_id, r.round, r.metrics, r.events, r.status)

/-- Closed form of the deterministic observations: every round carries the
midpoint metrics and the probability-one events of the scenario. -/
def detObsList (entity_id : String) (scn : Scenario) :
    Nat → Nat → List (String × Nat × List (String × ℚ) × List String × SimulationStatus)
  | 0, _ => []
  | n + 1, base =>
    (entity_id, base + 1,
     scn.metrics.map (fun p => (p.1, (p.2.1 + p.2.2) / 2)),
     (scn.events.filter (fun e => e.probability ≥ 1)).map
       (fun e => e.name ++ ":entity=" ++ entity_id),
     SimulationStatus.Success) :: detObsList entity_id scn n (base + 1)

theorem simulate_round_det (entity_id : String) (scn : Scenario)
    (round uid time : Nat) (rng : RngState) :
    simulate_round .Deterministic entity_id scn round uid time rng =
      (⟨uid, entity_id, round, time,
        scn.metrics.map (fun p => (p.1, (p.2.1 + p.2.2) / 2)),
        (scn.events.filter (fun e => e.probability ≥ 1)).map
          (fun e => e.name ++ ":entity=" ++ entity_id),
        .Success⟩, rng) := rfl

theorem run_rounds_det_ok (entity_id : String) (scn : Scenario)
    (uuids times : Nat → Nat) :
    ∀ (n base : Nat) (rng : RngState) (st : SimStore),
      ∃ rs st2,
        run_rounds .Deterministic entity_id scn uuids times n base rng st =
          .ok (rs, st2) ∧
        rs.map resultObservation = detObsList entity_id scn n base := by
  intro n
  induction n with
  | zero => intro base rng st; exact ⟨[], st, rfl, rfl⟩
  | succ n ih =>
    intro base rng st
    obtain ⟨rs, st2, heq, hobs⟩ := ih (base + 1) rng
      (mapInsert st entity_id (((mapGet st entity_id).getD []) ++
        [⟨uuids base, entity_id, base + 1, times base,
          scn.metrics.map (fun p => (p.1, (p.2.1 + p.2.2) / 2)),
          (scn.events.filter (fun e => e.probability ≥ 1)).map
            (fun e => e.name ++ ":entity=" ++ entity_id),
          .Success⟩]))
    refine ⟨(⟨uuids base, entity_id, base + 1, times base,
        scn.metrics.map (fun p => (p.1, (p.2.1 + p.2.2) / 2)),
        (scn.events.filter (fun e => e.probability ≥ 1)).map
          (fun e => e.name ++ ":entity=" ++ entity_id),
        .Success⟩ : SimulationResult) :: rs, st2, ?_, ?_⟩
    · simp only [run_rounds, simulate_round_det, save_simulation_result, heq]
    · simp only [List.map_cons, hobs, detObsList, resultObservation]

/-- C7: Deterministic-mode reproducibility. With cfg.mode = Deterministic the
outcome of run_simulation_with_config is independent of the RNG stream, the
uuid stream, the timestamp stream and the store: two calls agree round for
round on entity, round number, metric map, event list and status (only the
fresh uuids and timestamps differ), so the observable outcome is a pure
function of the registry entry's type and the config; and each deterministic
round's metrics are exactly the midpoints of the scenario's metric ranges. -/
theorem C7_deterministic_reproducible (reg : Registry) (entity_id : String)
    (cfg : SimulationConfig) (u1 u2 t1 t2 : Nat → Nat) (r1 r2 : RngState)
    (st1 st2 : SimStore) (h : cfg.mode = .Deterministic) :
    (run_simulation_with_config reg entity_id cfg u1 t1 r1 st1).map
        (List.map resultObservation) =
      (run_simulation_with_config reg entity_id cfg u2 t2 r2 st2).map
        (List.map resultObservation) ∧
    (∀ (scn : Scenario) (round uid time : Nat) (rng : RngState),
      ((simulate_round .Deterministic entity_id scn round uid time rng).1).metrics =
        scn.metrics.map (fun p => (p.1, (p.2.1 + p.2.2) / 2))) := by
  constructor
  · unfold run_simulation_with_config
    rw [h]
    cases hf : fetch_entity reg entity_id with
    | error e => cases e with | notFound id => rfl
    | ok p =>
      obtain ⟨lid, ty⟩ := p
      cases hs : cfg.scenario with
      | none =>
        obtain ⟨rsa, sta, heqa, hobsa⟩ :=
          run_rounds_det_ok entity_id (default_scenario_for_type ty) u1 t1
            cfg.rounds 0 r1 st1
        obtain ⟨rsb, stb, heqb, hobsb⟩ :=
          run_rounds_det_ok entity_id (default_scenario_for_type ty) u2 t2
            cfg.rounds 0 r2 st2
        simp only [heqa, heqb, Except.map, hobsa, hobsb]
      | some nm =>
        cases hl : load_scenario nm with
        | none => simp only [hl]
        | some scn =>
          obtain ⟨rsa, sta, heqa, hobsa⟩ :=
            run_rounds_det_ok entity_id scn u1 t1 cfg.rounds 0 r1 st1
          obtain ⟨rsb, stb, heqb, hobsb⟩ :=
            run_rounds_det_ok entity_id scn u2 t2 cfg.rounds 0 r2 st2
          simp only [hl, heqa, heqb, Except.map, hobsa, hobsb]
  · intro scn round uid time rng
    rw [simulate_round_det]

/-- Witness for C7 at a concrete registry, config and pair of distinct RNG,
uuid and timestamp streams. -/
theorem C7_deterministic_reproducible_witness :
    ((⟨.Deterministic, 2, none, [], none⟩ : SimulationConfig).mode =
      .Deterministic) ∧
    (run_simulation_with_config [("E", ⟨"E", "TEST", 0⟩)] "E"
        ⟨.Deterministic, 2, none, [], none⟩ (fun _ => 0) (fun _ => 0)
        ⟨fun _ => 0, 0⟩ []).map (List.map resultObservation) =
      (run_simulation_with_config [("E", ⟨"E", "TEST", 0⟩)] "E"
        ⟨.Deterministic, 2, none, [], none⟩ (fun k => k + 7) (fun k => k + 9)
        ⟨fun k => 1 / (k + 2 : ℚ), 5⟩ []).map (List.map resultObservation) :=
  ⟨rfl,
   (C7_deterministic_reproducible [("E", ⟨"E", "TEST", 0⟩)] "E"
      ⟨.Deterministic, 2, none, [], none⟩ (fun _ => 0) (fun k => k + 7)
      (fun _ => 0) (fun k => k + 9) ⟨fun _ => 0, 0⟩ ⟨fun k => 1 / (k + 2 : ℚ), 5⟩
      [] [] rfl).1⟩

/-! Shape of default (Random-mode) simulation runs and of evaluate_simulation
(C8). -/

theorem run_rounds_succ (mode : SimulationMode) (entity_id : String) (scn : Scenario)
    (uuids times : Nat → Nat) (n base : Nat) (rng : RngState) (st : SimStore) :
    run_rounds mode entity_id scn uuids times (n + 1) base rng st =
      match save_simulation_result st
          (simulate_round mode entity_id scn (base + 1) (uuids base) (times base) rng).1 with
      | .error _ => .error (.StorageError "save failed")
      | .ok st1 =>
        match run_rounds mode entity_id scn uuids times n (base + 1)
            (simulate_round mode entity_id scn (base + 1) (uuids base) (times base) rng).2 st1 with
        | .error e => .error e
        | .ok (rest, st2) =>
          .ok ((simulate_round mode entity_id scn (base + 1) (uuids base) (times base) rng).1
            :: rest, st2) := rfl

theorem simulate_round_entity_id (mode : SimulationMode) (entity_id : String)
    (scn : Scenario) (round uid time : Nat) (rng : RngState) :
    (simulate_round mode entity_id scn round uid time rng).1.entity_id = entity_id := by
  cases mode <;> rfl

theorem simulate_round_random_proj (entity_id : String) (scn : Scenario)
    (round uid time : Nat) (u : Nat → ℚ) (j : Nat) :
    (simulate_round .Random entity_id scn round uid time ⟨u, j⟩).1.round = round ∧
    (simulate_round .Random entity_id scn round uid time ⟨u, j⟩).1.metrics =
      [("success_rate", (1 : ℚ)/2 + u j * (1 - 1/2)),
       ("processing_time", 10 + u (j + 1) * (500 - 10)),
       ("resource_usage", (1 : ℚ)/10 + u (j + 2) * ((9 : ℚ)/10 - 1/10))] ∧
    (simulate_round .Random entity_id scn round uid time ⟨u, j⟩).2 = ⟨u, j + 6⟩ :=
  ⟨rfl, rfl, rfl⟩

theorem half_plus_scaled_unit (x : ℚ) (h0 : 0 ≤ x) (h1 : x < 1) :
    (1 : ℚ)/2 ≤ 1/2 + x * (1 - 1/2) ∧ (1 : ℚ)/2 + x * (1 - 1/2) < 1 := by
  constructor <;> nlinarith

theorem run_rounds_random_spec (entity_id : String) (scn : Scenario)
    (uuids times : Nat → Nat) (u : Nat → ℚ) (hu : ∀ i, 0 ≤ u i ∧ u i < 1) :
    ∀ (n base j : Nat) (st : SimStore),
      ∃ rs st2,
        run_rounds .Random entity_id scn uuids times n base ⟨u, j⟩ st = .ok (rs, st2) ∧
        rs.map (fun r => r.round) = (List.range n).map (fun i => base + i + 1) ∧
        ∀ r ∈ rs, ∃ s, mapGet r.metrics "success_rate" = some s ∧
          (1 : ℚ)/2 ≤ s ∧ s < 1 ∧ (mapGet r.metrics "processing_time").isSome = true := by
  intro n
  induction n with
  | zero => intro base j st; exact ⟨[], st, rfl, by simp, by simp⟩
  | succ n ih =>
    intro base j st
    obtain ⟨hroundp, hmetp, hrngp⟩ :=
      simulate_round_random_proj entity_id scn (base + 1) (uuids base) (times base) u j
    obtain ⟨rs, st2, heq, hround, hmet⟩ := ih (base + 1) (j + 6)
      (mapInsert st entity_id (((mapGet st entity_id).getD []) ++
        [(simulate_round .Random entity_id scn (base + 1) (uuids base) (times base)
            ⟨u, j⟩).1]))
    refine ⟨(simulate_round .Random entity_id scn (base + 1) (uuids base) (times base)
        ⟨u, j⟩).1 :: rs, st2, ?_, ?_, ?_⟩
    · rw [run_rounds_succ]
      simp only [save_simulation_result, simulate_round_entity_id, hrngp, heq]
    · simp only [List.map_cons, hroundp, hround, List.range_succ_eq_map,
        List.map_map, Function.comp]
      have hhead : base + 1 = base + 0 + 1 := by omega
      have htail : List.map (fun i => base + 1 + i + 1) (List.range n) =
          List.map ((fun i => base + i + 1) ∘ Nat.succ) (List.range n) := by
        congr 1
        funext i
        simp only [Function.comp_apply]
        omega
      rw [← hhead, ← htail]
    · intro r hr
      rcases List.mem_cons.mp hr with hhd | htl
      · subst hhd
        refine ⟨(1 : ℚ)/2 + u j * (1 - 1/2), ?_, ?_, ?_, ?_⟩
        · rw [hmetp]
          simp [mapGet]
        · exact (half_plus_scaled_unit (u j) (hu j).1 (hu j).2).1
        · exact (half_plus_scaled_unit (u j) (hu j).1 (hu j).2).2
        · rw [hmetp]
          simp [mapGet]
      · exact hmet r htl

theorem evaluate_simulation_unit_interval (results : List SimulationResult)
    (h : ∀ r ∈ results, ∀ s, mapGet r.metrics "success_rate" = some s → 0 ≤ s ∧ s ≤ 1) :
    0 ≤ evaluate_simulation results ∧ evaluate_simulation results ≤ 1 := by
  cases hre : results.isEmpty with
  | true => simp [evaluate_simulation, hre]
  | false =>
    have hx : ∀ x ∈ results.filterMap (fun r => mapGet r.metrics "success_rate"),
        0 ≤ x ∧ x ≤ 1 := by
      intro x hmem
      obtain ⟨r, hr, hget⟩ := List.mem_filterMap.mp hmem
      exact h r hr x hget
    by_cases hv : (results.filterMap (fun r => mapGet r.metrics "success_rate")).length = 0
    · simp [evaluate_simulation, hre, hv]
    · have hsum0 : 0 ≤ (results.filterMap (fun r => mapGet r.metrics "success_rate")).sum :=
        List.sum_nonneg (fun x hmem => (hx x hmem).1)
      have hsum1 : (results.filterMap (fun r => mapGet r.metrics "success_rate")).sum ≤
          ((results.filterMap (fun r => mapGet r.metrics "success_rate")).length : ℚ) := by
        have := List.sum_le_card_nsmul
          (results.filterMap (fun r => mapGet r.metrics "success_rate")) 1
          (fun x hmem => (hx x hmem).2)
        simpa using this
      have hlen : (0 : ℚ) <
          ((results.filterMap (fun r => mapGet r.metrics "success_rate")).length : ℚ) := by
        have := Nat.pos_of_ne_zero hv
        exact_mod_cast this
      constructor
      · simp only [evaluate_simulation, hre, Bool.false_eq_true, if_false, hv]
        exact div_nonneg hsum0 (le_of_lt hlen)
      · simp only [evaluate_simulation, hre, Bool.false_eq_true, if_false, hv]
        rw [div_le_one hlen]
        exact hsum1

/-- C8: run_simulation returns, for every registered entity and any rounds
count n and any admissible RNG stream (draws in the unit interval), exactly n
results whose round fields are 1..n in increasing order, each carrying the
success_rate and processing_time metrics; and evaluate_simulation of that
result list lies in the closed interval from 0 to 1. -/
theorem C8_run_simulation_shape (reg : Registry) (entity_id : String) (n : Nat)
    (uuids times : Nat → Nat) (u : Nat → ℚ) (j : Nat) (st : SimStore)
    (hreg : (lookupEntity reg entity_id).isSome = true)
    (hu : ∀ i, 0 ≤ u i ∧ u i < 1) :
    ∃ results,
      run_simulation reg entity_id n uuids times ⟨u, j⟩ st = .ok results ∧
      results.length = n ∧
      results.map (fun r => r.round) = (List.range n).map (fun i => i + 1) ∧
      (∀ r ∈ results, (mapGet r.metrics "success_rate").isSome = true ∧
        (mapGet r.metrics "processing_time").isSome = true) ∧
      0 ≤ evaluate_simulation results ∧ evaluate_simulation results ≤ 1 := by
  obtain ⟨e, he⟩ := Option.isSome_iff_exists.mp hreg
  obtain ⟨rs, st2, heq, hround, hmet⟩ :=
    run_rounds_random_spec entity_id (default_scenario_for_type e.entity_type)
      uuids times u hu n 0 j st
  have hbounds : 0 ≤ evaluate_simulation rs ∧ evaluate_simulation rs ≤ 1 := by
    refine evaluate_simulation_unit_interval rs ?_
    intro r hr s hget
    obtain ⟨s2, hs2, hlo, hhi, _⟩ := hmet r hr
    rw [hs2] at hget
    cases hget
    constructor
    · linarith
    · linarith
  refine ⟨rs, ?_, ?_, ?_, ?_, hbounds.1, hbounds.2⟩
  · unfold run_simulation run_simulation_with_config
    simp only [fetch_entity, he, defaultSimulationConfig, heq]
  · have := congrArg List.length hround
    simpa using this
  · simpa using hround
  · intro r hr
    obtain ⟨s, hs, _, _, hp⟩ := hmet r hr
    exact ⟨by simp [hs], hp⟩

/-- Witness for C8 at a concrete one-entity registry, two rounds and the
constant one-half RNG stream. -/
theorem C8_run_simulation_shape_witness :
    ((lookupEntity [("E", ⟨"E", "TEST", 0⟩)] "E").isSome = true) ∧
    ∃ results,
      run_simulation [("E", ⟨"E", "TEST", 0⟩)] "E" 2 (fun _ => 0) (fun _ => 0)
          ⟨fun _ => (1 : ℚ)/2, 0⟩ [] = .ok results ∧
      results.length = 2 ∧
      results.map (fun r => r.round) = (List.range 2).map (fun i => i + 1) ∧
      (∀ r ∈ results, (mapGet r.metrics "success_rate").isSome = true ∧
        (mapGet r.metrics "processing_time").isSome = true) ∧
      0 ≤ evaluate_simulation results ∧ evaluate_simulation results ≤ 1 :=
  ⟨by decide,
   C8_run_simulation_shape [("E", ⟨"E", "TEST", 0⟩)] "E" 2 (fun _ => 0) (fun _ => 0)
     (fun _ => (1 : ℚ)/2) 0 [] (by decide) (fun i => by norm_num)⟩

end Logline
